import Mathlib

/-!
Shallow embedding of `potgun.py` (repository PotGun): one-dimensional motion
of a projectile driven down a barrel by injected hot gas.

Python floating-point arithmetic is idealised as exact rational arithmetic;
`np.pi` is embedded as the exact rational value of the IEEE-754 double
closest to pi, which is the value the script actually multiplies with.
The trajectory array `yint` produced by `scipy.integrate.odeint` is treated
as an arbitrary list of (velocity, position) samples, since the solver is an
external black-box collaborator.  Console formatting is not modelled: a
table row is the tuple of values the script formats on lines 97-98, and the
summary quantities are the values returned by `muzzle`.
-/

namespace Potgun

/-- `np.pi`: the exact rational value of the IEEE-754 double 3.141592653589793. -/
def npPi : ℚ := 884279719003555 / 281474976710656

-- input parameters (potgun.py lines 26-33)

def mw : ℚ := 85.0

def bdi : ℚ := 1.5

def bli : ℚ := 40.0

def xi : ℚ := 4.0

def bfi : ℚ := 0.5

def gvl : ℚ := 3.36

def gms : ℚ := 30.0

def gtf : ℚ := 400.0

-- constants and units conversion factors (lines 36-42)

def ps : ℚ := 100000.0

def ts : ℚ := 273.15

def ta : ℚ := 298.15

def R : ℚ := 8.3144621

def cf1 : ℚ := 12.0 / 0.3048

def cf2 : ℚ := 1.0 / 0.0254^3

def cf3 : ℚ := 6894.7573

-- calculated parameters converted to metric (lines 45-56)

def mkg : ℚ := mw/1000.0

def bd : ℚ := bdi / cf1

def bs : ℚ := (npPi/4.0) * bd^2

def bl : ℚ := bli/cf1

def gvm : ℚ := gvl/22.4

def gs1 : ℚ := gms/1000.0

def gvr : ℚ := gvm/gs1

def gtk : ℚ := (gtf - 32.0)/1.8 + ts

def x0 : ℚ := xi/cf1

def v0 : ℚ := bs*x0

def n0 : ℚ := ps*v0/(R*gtk)

def bf : ℚ := bfi*cf3

/-- Moles of gas behind the projectile at time `t`: the conditional of
lines 60-63 of `derv`, recomputed verbatim by the reporter loop
(lines 84-89). -/
def nmAt (t : ℚ) : ℚ := if t < gs1 then gvr*t + n0 else gvm

/-- Gas injection rate displayed by the reporter (lines 84-88). -/
def grAt (t : ℚ) : ℚ := if t < gs1 then gvr else 0

/-- The dynamics model `derv` (lines 59-68): maps the state
`yint = (velocity, position)` and the time `t` to the derivative pair
(acceleration, velocity). -/
def derv (yint : ℚ × ℚ) (t : ℚ) : ℚ × ℚ :=
  let nm := nmAt t
  let bpa := nm*R*gtk/(bs*yint.2)
  let bpg := bpa - ps - bf
  let ode0 := bpg*bs / mkg
  let ode1 := yint.1
  (ode0, ode1)

/-- Initial state (line 70): zero velocity, position at the void length. -/
def y0 : ℚ × ℚ := (0, x0)

/-- Time grid `np.arange(0.0, 0.04, 0.001)` (line 71): 40 samples. -/
def tgrid : List ℚ := (List.range 40).map (fun k => (k : ℚ) / 1000)

-- per-row quantities recomputed by the reporter loop (lines 91-95)

/-- Absolute barrel pressure recomputed by the reporter (line 91). -/
def bpnaAt (t pos : ℚ) : ℚ := nmAt t * R * gtk/(bs*pos)

/-- Gauge barrel pressure recomputed by the reporter (line 92). -/
def bpngAt (t pos : ℚ) : ℚ := bpnaAt t pos - ps

/-- Acceleration recomputed by the reporter (line 95). -/
def accAt (t pos : ℚ) : ℚ := bpngAt t pos * bs/mkg

/-- One printed table row (the values formatted on lines 97-98; the time is
kept in seconds and the gauge pressure in pascals, the printed columns being
`time*1000` and `bpng/cf3`). -/
structure Row where
  time : ℚ
  gr : ℚ
  bpng : ℚ
  acc : ℚ
  vel : ℚ
  pos : ℚ
deriving DecidableEq

/-- The row the loop body prints for the sample `q = (t, (velocity, position))`. -/
def rowOf (q : ℚ × (ℚ × ℚ)) : Row :=
  { time := q.1, gr := grAt q.1, bpng := bpngAt q.1 q.2.2,
    acc := accAt q.1 q.2.2, vel := q.2.1, pos := q.2.2 }

/-- The reporter loop (lines 79-100) over the samples `(t[n], yint[n])`,
threading the running maximum gauge pressure `mpng`.  Returns the printed
rows, the final `mpng`, and the final line counter `n` (which, after a
break, is the index of the first sample whose position exceeds `bl`). -/
def reportRows : List (ℚ × (ℚ × ℚ)) → ℚ → List Row × ℚ × ℕ
  | [], mpng => ([], mpng, 0)
  | q :: rest, mpng =>
    if bl < q.2.2 then ([], mpng, 0)
    else
      let bpng := bpngAt q.1 q.2.2
      let mpng2 := if mpng < bpng then bpng else mpng
      let out := reportRows rest mpng2
      (rowOf q :: out.1, out.2.1, out.2.2 + 1)

/-- Final value of the loop counter `n` (line 79 initialises it to 0). -/
def nExit (s : List (ℚ × (ℚ × ℚ))) : ℕ := (reportRows s 0).2.2

/-- The list of printed rows (line 80 initialises `mpng` to 0.0). -/
def rowsOut (s : List (ℚ × (ℚ × ℚ))) : List Row := (reportRows s 0).1

/-- The final running maximum gauge pressure, printed in the summary
(line 112 prints `mpng/cf3`). -/
def mpngFinal (s : List (ℚ × (ℚ × ℚ))) : ℚ := (reportRows s 0).2.1

/-- The successive values of `mpng` held after each printed row: the
running-maximum trace of the reporter loop. -/
def mpngTrace : List (ℚ × (ℚ × ℚ)) → ℚ → List ℚ
  | [], _ => []
  | q :: rest, mpng =>
    if bl < q.2.2 then []
    else
      let bpng := bpngAt q.1 q.2.2
      let mpng2 := if mpng < bpng then bpng else mpng
      mpng2 :: mpngTrace rest mpng2

/-- Python/numpy sequence indexing: a negative index wraps once from the
end; an index out of `[-len, len)` raises IndexError, modelled as `none`. -/
def pyGet (l : List ℚ) (i : ℤ) : Option ℚ :=
  if 0 ≤ i then
    if i < (l.length : ℤ) then l.get? i.toNat else none
  else
    if -(l.length : ℤ) ≤ i then l.get? ((l.length : ℤ) + i).toNat else none

/-- The triple of entries at Python indices `n-2`, `n-1`, `n`
(lines 103-105 build `lgx`, `lgv`, `lgt` this way). -/
def pick3 (l : List ℚ) (n : ℤ) : Option (ℚ × ℚ × ℚ) := do
  let a ← pyGet l (n - 2)
  let b ← pyGet l (n - 1)
  let c ← pyGet l n
  pure (a, b, c)

/-- `lgx` (line 103): the last three positions retained for interpolation. -/
def lgxOf (yint : List (ℚ × ℚ)) (tl : List ℚ) : Option (ℚ × ℚ × ℚ) :=
  pick3 (yint.map (fun q => q.2)) (nExit (tl.zip yint))

/-- `lgv` (line 104): the corresponding three velocities. -/
def lgvOf (yint : List (ℚ × ℚ)) (tl : List ℚ) : Option (ℚ × ℚ × ℚ) :=
  pick3 (yint.map (fun q => q.1)) (nExit (tl.zip yint))

/-- `lgt` (line 105): the corresponding three times. -/
def lgtOf (yint : List (ℚ × ℚ)) (tl : List ℚ) : Option (ℚ × ℚ × ℚ) :=
  pick3 tl (nExit (tl.zip yint))

/-- Degree-2 Lagrange interpolation through `(a,fa)`, `(b,fb)`, `(c,fc)`,
evaluated at `X` (`scipy.interpolate.lagrange` on three points). -/
def lagrange3 (a b c fa fb fc X : ℚ) : ℚ :=
  fa * ((X - b) * (X - c)) / ((a - b) * (a - c))
  + fb * ((X - a) * (X - c)) / ((b - a) * (b - c))
  + fc * ((X - a) * (X - b)) / ((c - a) * (c - b))

/-- Muzzle interpolation (lines 103-109): fit velocity-vs-position and
time-vs-position through the retained samples and evaluate at `bl`.
Returns `(exit velocity in m/s, exit time in ms)`; `none` models the
IndexError raised when an index falls outside `[-len, len)`. -/
def muzzle (yint : List (ℚ × ℚ)) (tl : List ℚ) : Option (ℚ × ℚ) := do
  let (xa, xb, xc) ← lgxOf yint tl
  let (va, vb, vc) ← lgvOf yint tl
  let (ua, ub, uc) ← lgtOf yint tl
  pure (lagrange3 xa xb xc va vb vc bl, lagrange3 xa xb xc ua ub uc bl * 1000)

/-! ### Exact values of the derived constants -/

lemma gs1_val : gs1 = 3/100 := by norm_num [gs1, gms]

lemma gvm_val : gvm = 3/20 := by norm_num [gvm, gvl]

lemma gvr_val : gvr = 5 := by norm_num [gvr, gvm, gvl, gs1, gms]

lemma mkg_val : mkg = 17/200 := by norm_num [mkg, mw]

lemma bd_val : bd = 381/10000 := by norm_num [bd, bdi, cf1]

lemma bs_val : bs = npPi * 145161/400000000 := by norm_num [bs, bd, bdi, cf1, npPi]

lemma x0_val : x0 = 127/1250 := by norm_num [x0, xi, cf1]

lemma bl_val : bl = 127/125 := by norm_num [bl, bli, cf1]

lemma gtk_val : gtk = 85967/180 := by norm_num [gtk, gtf, ts]

lemma bf_val : bf = 68947573/20000 := by norm_num [bf, bfi, cf3]

lemma n0_pos : 0 < n0 := by
  norm_num [n0, ps, v0, bs_val, x0_val, R, gtk_val, npPi]

lemma x0_lt_bl : x0 < bl := by norm_num [x0_val, bl_val]

lemma mkg_ne : mkg ≠ 0 := by norm_num [mkg_val]

lemma bs_ne : bs ≠ 0 := by norm_num [bs_val, npPi]

/-! ### The initial sample: trapped air exactly balances ambient pressure -/

lemma bpna_init : bpnaAt 0 x0 = ps := by
  have h : (0:ℚ) < gs1 := by norm_num [gs1_val]
  norm_num [bpnaAt, nmAt, h, n0, v0, ps, R, gtk_val, bs_val, x0_val, npPi]

lemma bpng_init : bpngAt 0 x0 = 0 := by
  rw [bpngAt, bpna_init, sub_self]

lemma acc_init : accAt 0 x0 = 0 := by
  rw [accAt, bpng_init, zero_mul, zero_div]

/-! ### Unfolding equations for the reporter loop -/

lemma reportRows_nil (m : ℚ) : reportRows [] m = ([], m, 0) := rfl

lemma reportRows_cons (q : ℚ × (ℚ × ℚ)) (rest : List (ℚ × (ℚ × ℚ))) (m : ℚ) :
    reportRows (q :: rest) m =
      if bl < q.2.2 then ([], m, 0)
      else
        (rowOf q :: (reportRows rest (if m < bpngAt q.1 q.2.2 then bpngAt q.1 q.2.2 else m)).1,
         (reportRows rest (if m < bpngAt q.1 q.2.2 then bpngAt q.1 q.2.2 else m)).2.1,
         (reportRows rest (if m < bpngAt q.1 q.2.2 then bpngAt q.1 q.2.2 else m)).2.2 + 1) := by
  rw [reportRows]

lemma mpngTrace_cons (q : ℚ × (ℚ × ℚ)) (rest : List (ℚ × (ℚ × ℚ))) (m : ℚ) :
    mpngTrace (q :: rest) m =
      if bl < q.2.2 then []
      else
        (if m < bpngAt q.1 q.2.2 then bpngAt q.1 q.2.2 else m) ::
          mpngTrace rest (if m < bpngAt q.1 q.2.2 then bpngAt q.1 q.2.2 else m) := by
  rw [mpngTrace]

/-- The loop prints one row per sample up to (excluding) the first sample
whose position exceeds `bl`, and the counter stops at its index. -/
lemma reportRows_append (s₁ : List (ℚ × (ℚ × ℚ))) (p : ℚ × (ℚ × ℚ)) (s₂ : List (ℚ × (ℚ × ℚ)))
    (h₁ : ∀ q ∈ s₁, q.2.2 ≤ bl) (hp : bl < p.2.2) :
    ∀ m : ℚ, (reportRows (s₁ ++ p :: s₂) m).1 = s₁.map rowOf ∧
      (reportRows (s₁ ++ p :: s₂) m).2.2 = s₁.length := by
  induction s₁ with
  | nil =>
    intro m
    simp only [List.nil_append, reportRows_cons, if_pos hp, List.map_nil, List.length_nil]
    exact ⟨trivial, trivial⟩
  | cons q s₁' ih =>
    intro m
    have hq : ¬ bl < q.2.2 := not_lt.mpr (h₁ q (List.mem_cons_self _ _))
    have ih' := ih (fun r hr => h₁ r (List.mem_cons_of_mem _ hr))
    simp only [List.cons_append, reportRows_cons, if_neg hq, List.map_cons, List.length_cons]
    constructor
    · rw [(ih' _).1]
    · rw [(ih' _).2]

/-! ### Indexing lemmas -/

lemma pyGet_natCast (l : List ℚ) (k : ℕ) (hk : k < l.length) :
    pyGet l (k : ℤ) = l.get? k := by
  rw [pyGet, if_pos (Int.ofNat_nonneg k), if_pos (by exact_mod_cast hk)]
  simp

lemma pick3_eq (l : List ℚ) (n : ℕ) (a b c : ℚ) (h2 : 2 ≤ n)
    (ha : l.get? (n-2) = some a) (hb : l.get? (n-1) = some b) (hc : l.get? n = some c) :
    pick3 l (n : ℤ) = some (a, b, c) := by
  have hn : n < l.length := by
    rcases List.get?_eq_some.mp hc with ⟨h, _⟩
    exact h
  have e2 : (n : ℤ) - 2 = ((n - 2 : ℕ) : ℤ) := by omega
  have e1 : (n : ℤ) - 1 = ((n - 1 : ℕ) : ℤ) := by omega
  rw [pick3, e2, e1, pyGet_natCast l (n-2) (by omega), pyGet_natCast l (n-1) (by omega),
    pyGet_natCast l n hn, ha, hb, hc]
  rfl

/-! ### Running-maximum lemmas -/

lemma ite_lt_eq_max (m b : ℚ) : (if m < b then b else m) = max m b := by
  rcases lt_or_le m b with h | h
  · rw [if_pos h, max_eq_right h.le]
  · rw [if_neg (not_lt.mpr h), max_eq_left h]

lemma foldl_max_comm (l : List ℚ) : ∀ a b : ℚ, List.foldl max (max a b) l = max a (List.foldl max b l) := by
  induction l with
  | nil => intro a b; rfl
  | cons c l ih =>
    intro a b
    rw [List.foldl_cons, List.foldl_cons, max_assoc, ih a (max b c)]

lemma maximum_cons_foldl (l : List ℚ) :
    ∀ a : ℚ, (a :: l).maximum = ((l.foldl max a : ℚ) : WithBot ℚ) := by
  induction l with
  | nil => intro a; simp [List.maximum_singleton]
  | cons b l ih =>
    intro a
    rw [List.maximum_cons, ih b, List.foldl_cons, foldl_max_comm l a b]
    exact (WithBot.coe_max _ _).symm

lemma reportRows_mpng_foldl (s : List (ℚ × (ℚ × ℚ))) :
    ∀ m : ℚ, (reportRows s m).2.1 = ((reportRows s m).1.map Row.bpng).foldl max m := by
  induction s with
  | nil => intro m; rfl
  | cons q rest ih =>
    intro m
    rw [reportRows_cons]
    by_cases h : bl < q.2.2
    · rw [if_pos h]; rfl
    · rw [if_neg h]
      simp only [List.map_cons, List.foldl_cons]
      rw [ih, ite_lt_eq_max]
      rfl

lemma mpngTrace_head_ge (s : List (ℚ × (ℚ × ℚ))) (m x : ℚ)
    (hx : (mpngTrace s m).head? = some x) : m ≤ x := by
  cases s with
  | nil => simp [mpngTrace] at hx
  | cons q rest =>
    rw [mpngTrace_cons] at hx
    by_cases h : bl < q.2.2
    · rw [if_pos h] at hx; simp at hx
    · rw [if_neg h] at hx
      simp only [List.head?_cons, Option.some.injEq] at hx
      subst hx
      rw [ite_lt_eq_max]
      exact le_max_left _ _

lemma mpngTrace_chain (s : List (ℚ × (ℚ × ℚ))) : ∀ m : ℚ, List.Chain' (· ≤ ·) (mpngTrace s m) := by
  induction s with
  | nil => intro m; exact List.chain'_nil
  | cons q rest ih =>
    intro m
    rw [mpngTrace_cons]
    by_cases h : bl < q.2.2
    · rw [if_pos h]; exact List.chain'_nil
    · rw [if_neg h]
      refine List.chain'_cons'.mpr ⟨?_, ih _⟩
      intro y hy
      exact mpngTrace_head_ge rest _ y hy

lemma mpngTrace_getLast (s : List (ℚ × (ℚ × ℚ))) :
    ∀ m : ℚ, (mpngTrace s m).getLastD m = (reportRows s m).2.1 := by
  induction s with
  | nil => intro m; rfl
  | cons q rest ih =>
    intro m
    rw [mpngTrace_cons, reportRows_cons]
    by_cases h : bl < q.2.2
    · rw [if_pos h, if_pos h]; rfl
    · rw [if_neg h, if_neg h, List.getLastD_cons, ih]

/-! ### Lagrange interpolation lemmas -/

lemma lagrange3_node_a (a b c fa fb fc : ℚ) (hab : a ≠ b) (hac : a ≠ c) :
    lagrange3 a b c fa fb fc a = fa := by
  have h1 : a - b ≠ 0 := sub_ne_zero.mpr hab
  have h2 : a - c ≠ 0 := sub_ne_zero.mpr hac
  rw [lagrange3]
  simp only [sub_self, zero_mul, mul_zero, zero_div, add_zero]
  rw [mul_div_assoc, div_self (mul_ne_zero h1 h2), mul_one]

lemma lagrange3_node_b (a b c fa fb fc : ℚ) (hab : a ≠ b) (hbc : b ≠ c) :
    lagrange3 a b c fa fb fc b = fb := by
  have h1 : b - a ≠ 0 := sub_ne_zero.mpr (Ne.symm hab)
  have h2 : b - c ≠ 0 := sub_ne_zero.mpr hbc
  rw [lagrange3]
  simp only [sub_self, zero_mul, mul_zero, zero_div, add_zero, zero_add]
  rw [mul_div_assoc, div_self (mul_ne_zero h1 h2), mul_one]

lemma lagrange3_node_c (a b c fa fb fc : ℚ) (hac : a ≠ c) (hbc : b ≠ c) :
    lagrange3 a b c fa fb fc c = fc := by
  have h1 : c - a ≠ 0 := sub_ne_zero.mpr (Ne.symm hac)
  have h2 : c - b ≠ 0 := sub_ne_zero.mpr (Ne.symm hbc)
  rw [lagrange3]
  simp only [sub_self, zero_mul, mul_zero, zero_div, add_zero, zero_add]
  rw [mul_div_assoc, div_self (mul_ne_zero h1 h2), mul_one]

lemma lagrange3_quadratic (a b c fa fb fc : ℚ) :
    ∃ c2 c1 c0 : ℚ, ∀ X : ℚ, lagrange3 a b c fa fb fc X = c2*X^2 + c1*X + c0 := by
  refine ⟨fa/((a-b)*(a-c)) + fb/((b-a)*(b-c)) + fc/((c-a)*(c-b)),
          -(fa/((a-b)*(a-c))*(b+c) + fb/((b-a)*(b-c))*(a+c) + fc/((c-a)*(c-b))*(a+b)),
          fa/((a-b)*(a-c))*(b*c) + fb/((b-a)*(b-c))*(a*c) + fc/((c-a)*(c-b))*(a*b), ?_⟩
  intro X
  rw [lagrange3, mul_div_right_comm fa, mul_div_right_comm fb, mul_div_right_comm fc]
  ring

/-! ### Claims -/

/-- Claim C1, counterexample: the moles schedule is NOT strictly increasing on
the closed interval [0, injection duration] and NOT continuous at the
breakpoint: at `t = 299/10000` (inside the interval, before `gs1`) the
schedule value strictly exceeds its value at `gs1` itself, because the ramp
`gvr*t + n0` approaches `gvm + n0` while the plateau is only `gvm`. -/
theorem C1_cex :
    (299/10000 : ℚ) ∈ Set.Icc 0 gs1 ∧ gs1 ∈ Set.Icc (0:ℚ) gs1 ∧
    (299/10000 : ℚ) < gs1 ∧ nmAt gs1 < nmAt (299/10000) := by
  refine ⟨Set.mem_Icc.mpr ⟨by norm_num, by norm_num [gs1_val]⟩,
    Set.mem_Icc.mpr ⟨by norm_num [gs1_val], le_refl gs1⟩, by norm_num [gs1_val], ?_⟩
  have h1 : ¬ gs1 < gs1 := lt_irrefl gs1
  have h2 : (299/10000 : ℚ) < gs1 := by norm_num [gs1_val]
  rw [nmAt, nmAt, if_neg h1, if_pos h2]
  norm_num [gvr_val, gvm_val, n0, ps, v0, bs_val, x0_val, R, gtk_val, npPi]

/-- Claim C1, amended: the gas-moles schedule is piecewise linear, strictly
increasing on the half-open interval [0, injection duration), with value `n0`
at `t = 0` and constant value `gvm` from the injection duration onwards; it
is discontinuous at the breakpoint: for `t < gs1` the value is
`(gvm + n0) - gvr*(gs1 - t)`, so the values just before `gs1` approach
`gvm + n0`, exceeding the plateau `gvm` by the initial trapped moles
`n0 > 0`. -/
theorem C1_amended :
    StrictMonoOn nmAt (Set.Ico 0 gs1) ∧
    nmAt 0 = n0 ∧
    (∀ t : ℚ, gs1 ≤ t → nmAt t = gvm) ∧
    (∀ t : ℚ, t < gs1 → nmAt t = (gvm + n0) - gvr * (gs1 - t)) ∧
    0 < n0 := by
  refine ⟨?_, ?_, ?_, ?_, n0_pos⟩
  · intro x hx y hy hxy
    have hx2 : x < gs1 := hx.2
    have hy2 : y < gs1 := hy.2
    simp only [nmAt, if_pos hx2, if_pos hy2, gvr_val]
    linarith
  · rw [nmAt, if_pos (by norm_num [gs1_val] : (0:ℚ) < gs1), mul_zero, zero_add]
  · intro t ht
    rw [nmAt, if_neg (not_lt.mpr ht)]
  · intro t ht
    rw [nmAt, if_pos ht]
    have h : gvr * gs1 = gvm := by rw [gvr_val, gs1_val, gvm_val]; norm_num
    linear_combination h

/-- Claim C1, witness: the amended theorem applied at concrete inputs. -/
theorem C1_wit : nmAt (1/100) < nmAt (2/100) ∧ nmAt gs1 = gvm ∧ 0 < n0 :=
  ⟨C1_amended.1 (Set.mem_Ico.mpr ⟨by norm_num, by norm_num [gs1_val]⟩)
      (Set.mem_Ico.mpr ⟨by norm_num, by norm_num [gs1_val]⟩) (by norm_num),
   C1_amended.2.2.1 gs1 (le_refl gs1),
   C1_amended.2.2.2.2⟩

/-- Claim C2, counterexample: at the initial sample (t = 0, state (0, x0)),
the acceleration the reporter prints (0) differs from the acceleration
component of `derv` at the same state and time (which is `-(bf*bs/mkg)`,
since `derv` also subtracts the friction offset `bf`). -/
theorem C2_cex : (rowOf ((0:ℚ), ((0:ℚ), x0))).acc ≠ (derv ((0:ℚ), x0) 0).1 := by
  have h1 : (rowOf ((0:ℚ), ((0:ℚ), x0))).acc = 0 := acc_init
  have h2 : (derv ((0:ℚ), x0) 0).1 = -(bf*bs/mkg) := by
    show (nmAt 0 * R * gtk / (bs * x0) - ps - bf) * bs / mkg = -(bf*bs/mkg)
    rw [show nmAt 0 * R * gtk / (bs * x0) = bpnaAt 0 x0 from rfl, bpna_init]
    ring
  rw [h1, h2]
  norm_num [bf_val, bs_val, mkg_val, npPi]

/-- Claim C2, amended: the acceleration the reporter prints for a sample is
the acceleration component of `derv` at the same state and time PLUS the
constant friction term `bf*bs/mkg`: the reporter's recomputation omits the
friction pressure offset, so the two are never equal. -/
theorem C2_amended (tn v pos : ℚ) (_hpos : pos ≠ 0) :
    (rowOf (tn, (v, pos))).acc = (derv (v, pos) tn).1 + bf * bs / mkg := by
  show accAt tn pos = (nmAt tn * R * gtk / (bs * pos) - ps - bf) * bs / mkg + bf * bs / mkg
  rw [accAt, bpngAt, bpnaAt]
  field_simp
  ring

/-- Claim C2, witness: the amended theorem applied at the initial sample. -/
theorem C2_wit :
    (rowOf ((0:ℚ), ((0:ℚ), x0))).acc = (derv ((0:ℚ), x0) 0).1 + bf * bs / mkg :=
  C2_amended 0 0 x0 (by norm_num [x0_val])

/-- Claim C8 (confirmed): for a state with nonzero position the dynamics
model returns exactly (effective gauge pressure times bore area over mass,
current velocity), with the absolute pressure given by the ideal-gas law on
the current moles `nmAt t`, gas temperature `gtk` and volume `bs*pos`; the
divisor `bs*pos` is nonzero. -/
theorem C8_thm (v pos t : ℚ) (hpos : pos ≠ 0) :
    bs * pos ≠ 0 ∧
    derv (v, pos) t = ((nmAt t * R * gtk / (bs * pos) - ps - bf) * bs / mkg, v) :=
  ⟨mul_ne_zero bs_ne hpos, rfl⟩

/-- Claim C8, witness: the theorem applied at velocity 1, position `x0`,
time 0. -/
theorem C8_wit :
    bs * x0 ≠ 0 ∧
    derv ((1:ℚ), x0) 0 = ((nmAt 0 * R * gtk / (bs * x0) - ps - bf) * bs / mkg, 1) :=
  C8_thm 1 x0 0 (by norm_num [x0_val])

/-- Claim C9 (confirmed): the derived constants follow the stated fixed
conversions: mass kg = g/1000, lengths via the factor `cf1 = 12/0.3048`
(within 1/10000 of 39.3701), bore area = pi/4 times diameter squared,
moles = liters/22.4, temperature K = (F-32)/1.8 + 273.15, friction
Pa = psi times `cf3 = 6894.7573` (within 1/100 of 6894.76), and the initial
trapped-air moles satisfy the ideal-gas law
`n0 * (R*gtk) = ps * (bs*x0)`. -/
theorem C9_thm :
    mkg = mw / 1000 ∧ mkg = 17/200 ∧
    bd = bdi / cf1 ∧ bd = 381/10000 ∧
    bl = bli / cf1 ∧ bl = 127/125 ∧
    |cf1 - 39.3701| < 1/10000 ∧
    bs = (npPi/4) * bd^2 ∧
    gvm = gvl / 22.4 ∧ gvm = 3/20 ∧
    gtk = (gtf - 32)/1.8 + 273.15 ∧ gtk = 85967/180 ∧
    |cf3 - 6894.76| < 1/100 ∧
    bf = bfi * cf3 ∧ bf = 68947573/20000 ∧
    n0 * (R * gtk) = ps * (bs * x0) ∧ R * gtk ≠ 0 := by
  have hR : R * gtk ≠ 0 := by norm_num [R, gtk_val]
  refine ⟨by norm_num [mkg, mw], mkg_val, rfl, bd_val, rfl, bl_val,
    by rw [abs_lt]; constructor <;> norm_num [cf1], by norm_num [bs], by norm_num [gvm], gvm_val,
    by norm_num [gtk, gtf, ts], gtk_val, by rw [abs_lt]; constructor <;> norm_num [cf3], rfl, bf_val, ?_, hR⟩
  rw [n0, v0]
  exact div_mul_cancel₀ _ hR

/-- Claim C10 (confirmed): at the initial sample (t = 0, velocity 0,
position x0) the absolute pressure the reporter recomputes equals the
ambient pressure exactly, and therefore the first printed row has gauge
pressure 0 and acceleration 0. -/
theorem C10_thm (s : List (ℚ × (ℚ × ℚ))) (hhead : s.head? = some (0, (0, x0))) :
    bpnaAt 0 x0 = ps ∧
    ∃ r rest, rowsOut s = r :: rest ∧ r.bpng = 0 ∧ r.acc = 0 := by
  refine ⟨bpna_init, ?_⟩
  cases s with
  | nil => simp at hhead
  | cons q s' =>
    have hq : q = (0, (0, x0)) := by simpa using hhead
    subst hq
    have hnot : ¬ bl < ((0:ℚ), ((0:ℚ), x0)).2.2 := not_lt.mpr x0_lt_bl.le
    have hrows : rowsOut (((0:ℚ), ((0:ℚ), x0)) :: s') =
        rowOf ((0:ℚ), ((0:ℚ), x0)) ::
          (reportRows s' (if 0 < bpngAt 0 x0 then bpngAt 0 x0 else 0)).1 := by
      rw [rowsOut, reportRows_cons, if_neg hnot]
    exact ⟨rowOf ((0:ℚ), ((0:ℚ), x0)), _, hrows, bpng_init, acc_init⟩

/-- Claim C10, witness: the theorem applied to a one-sample trajectory. -/
theorem C10_wit :
    bpnaAt 0 x0 = ps ∧
    ∃ r rest, rowsOut [((0:ℚ), ((0:ℚ), x0))] = r :: rest ∧ r.bpng = 0 ∧ r.acc = 0 :=
  C10_thm [((0:ℚ), ((0:ℚ), x0))] rfl

/-- Claim C4 (confirmed): if `p` is the first sample whose position strictly
exceeds the barrel length (all samples of the prefix `s₁` are in-barrel),
then the table has exactly one row per sample of `s₁`, in order; `p`
produces no row, the loop counter stops at `p`'s index, and the three
entries retained for interpolation (`lgx`, `lgv`, `lgt`) are exactly those
of the samples at indices `n-2`, `n-1` and `n`, where `n = s₁.length` is
`p`'s index. -/
theorem C4_thm (tl : List ℚ) (yint : List (ℚ × ℚ))
    (s₁ s₂ : List (ℚ × (ℚ × ℚ))) (p : ℚ × (ℚ × ℚ))
    (hs : tl.zip yint = s₁ ++ p :: s₂)
    (h₁ : ∀ q ∈ s₁, q.2.2 ≤ bl)
    (hp : bl < p.2.2)
    (h2 : 2 ≤ s₁.length) :
    nExit (tl.zip yint) = s₁.length ∧
    rowsOut (tl.zip yint) = s₁.map rowOf ∧
    (∃ qa qb qc : ℚ × ℚ,
      yint.get? (s₁.length - 2) = some qa ∧
      yint.get? (s₁.length - 1) = some qb ∧
      yint.get? s₁.length = some qc ∧
      lgxOf yint tl = some (qa.2, qb.2, qc.2) ∧
      lgvOf yint tl = some (qa.1, qb.1, qc.1)) ∧
    (∃ u v w : ℚ,
      tl.get? (s₁.length - 2) = some u ∧
      tl.get? (s₁.length - 1) = some v ∧
      tl.get? s₁.length = some w ∧
      lgtOf yint tl = some (u, v, w)) := by
  have hmain := reportRows_append s₁ p s₂ h₁ hp 0
  have hn : nExit (tl.zip yint) = s₁.length := by rw [nExit, hs]; exact hmain.2
  have hrows : rowsOut (tl.zip yint) = s₁.map rowOf := by rw [rowsOut, hs]; exact hmain.1
  have hzlen : s₁.length < (tl.zip yint).length := by
    rw [hs, List.length_append, List.length_cons]; omega
  have hylen : s₁.length < yint.length := by
    rw [List.length_zip] at hzlen; omega
  have htlen : s₁.length < tl.length := by
    rw [List.length_zip] at hzlen; omega
  have e2y : s₁.length - 2 < yint.length := by omega
  have e1y : s₁.length - 1 < yint.length := by omega
  have e2t : s₁.length - 2 < tl.length := by omega
  have e1t : s₁.length - 1 < tl.length := by omega
  refine ⟨hn, hrows, ?_, ?_⟩
  · refine ⟨yint.get ⟨s₁.length - 2, e2y⟩, yint.get ⟨s₁.length - 1, e1y⟩,
      yint.get ⟨s₁.length, hylen⟩, List.get?_eq_get _, List.get?_eq_get _,
      List.get?_eq_get _, ?_, ?_⟩
    · rw [lgxOf, hn]
      refine pick3_eq _ _ _ _ _ h2 ?_ ?_ ?_ <;>
        rw [List.get?_map, List.get?_eq_get] <;> rfl
    · rw [lgvOf, hn]
      refine pick3_eq _ _ _ _ _ h2 ?_ ?_ ?_ <;>
        rw [List.get?_map, List.get?_eq_get] <;> rfl
  · refine ⟨tl.get ⟨s₁.length - 2, e2t⟩, tl.get ⟨s₁.length - 1, e1t⟩,
      tl.get ⟨s₁.length, htlen⟩, List.get?_eq_get _, List.get?_eq_get _,
      List.get?_eq_get _, ?_⟩
    rw [lgtOf, hn]
    exact pick3_eq _ _ _ _ _ h2 (List.get?_eq_get _) (List.get?_eq_get _) (List.get?_eq_get _)

/-- Claim C4, witness: a concrete four-sample trajectory exiting at index 3. -/
theorem C4_wit :
    nExit ([0, 1/1000, 2/1000, 3/1000].zip [((0:ℚ), (1:ℚ)/10), (1, 1/2), (2, 9/10), (3, 2)]) = 3 :=
  (C4_thm [0, 1/1000, 2/1000, 3/1000] [((0:ℚ), (1:ℚ)/10), (1, 1/2), (2, 9/10), (3, 2)]
    [((0:ℚ), ((0:ℚ), (1:ℚ)/10)), (1/1000, (1, 1/2)), (2/1000, (2, 9/10))] []
    ((3:ℚ)/1000, ((3:ℚ), 2)) rfl
    (by intro q hq; fin_cases hq <;> norm_num [bl_val])
    (by norm_num [bl_val]) (by norm_num)).1

/-- Claim C3, amended: the exit velocity and exit time are obtained by
evaluating at `position = bl` the degree-2 Lagrange polynomials through the
(position, velocity) and (position, time) pairs of the samples at indices
`n-2`, `n-1` and `n`, where `n` is the exit-detected sample's index: the
fit uses the exit-detected sample itself together with the TWO samples
preceding it (not three samples preceding it).  The fitted functions are
genuine quadratics interpolating all three pairs exactly. -/
theorem C3_thm (tl : List ℚ) (yint : List (ℚ × ℚ)) (n : ℕ)
    (va xa vb xb vc xc u v w : ℚ)
    (hn : nExit (tl.zip yint) = n) (h2 : 2 ≤ n)
    (hya : yint.get? (n-2) = some (va, xa))
    (hyb : yint.get? (n-1) = some (vb, xb))
    (hyc : yint.get? n = some (vc, xc))
    (hta : tl.get? (n-2) = some u)
    (htb : tl.get? (n-1) = some v)
    (htc : tl.get? n = some w)
    (hab : xa ≠ xb) (hac : xa ≠ xc) (hbc : xb ≠ xc) :
    muzzle yint tl =
      some (lagrange3 xa xb xc va vb vc bl, lagrange3 xa xb xc u v w bl * 1000) ∧
    lagrange3 xa xb xc va vb vc xa = va ∧
    lagrange3 xa xb xc va vb vc xb = vb ∧
    lagrange3 xa xb xc va vb vc xc = vc ∧
    lagrange3 xa xb xc u v w xa = u ∧
    lagrange3 xa xb xc u v w xb = v ∧
    lagrange3 xa xb xc u v w xc = w ∧
    (∃ c2 c1 c0 : ℚ, ∀ X : ℚ, lagrange3 xa xb xc va vb vc X = c2*X^2 + c1*X + c0) ∧
    (∃ d2 d1 d0 : ℚ, ∀ X : ℚ, lagrange3 xa xb xc u v w X = d2*X^2 + d1*X + d0) := by
  have hx : lgxOf yint tl = some (xa, xb, xc) := by
    rw [lgxOf, hn]
    refine pick3_eq _ _ _ _ _ h2 ?_ ?_ ?_ <;> rw [List.get?_map]
    · rw [hya]; rfl
    · rw [hyb]; rfl
    · rw [hyc]; rfl
  have hv : lgvOf yint tl = some (va, vb, vc) := by
    rw [lgvOf, hn]
    refine pick3_eq _ _ _ _ _ h2 ?_ ?_ ?_ <;> rw [List.get?_map]
    · rw [hya]; rfl
    · rw [hyb]; rfl
    · rw [hyc]; rfl
  have ht : lgtOf yint tl = some (u, v, w) := by
    rw [lgtOf, hn]
    exact pick3_eq _ _ _ _ _ h2 hta htb htc
  refine ⟨?_, lagrange3_node_a _ _ _ _ _ _ hab hac, lagrange3_node_b _ _ _ _ _ _ hab hbc,
    lagrange3_node_c _ _ _ _ _ _ hac hbc, lagrange3_node_a _ _ _ _ _ _ hab hac,
    lagrange3_node_b _ _ _ _ _ _ hab hbc, lagrange3_node_c _ _ _ _ _ _ hac hbc,
    lagrange3_quadratic _ _ _ _ _ _, lagrange3_quadratic _ _ _ _ _ _⟩
  rw [muzzle, hx, hv, ht]
  rfl

/-- Claim C3, witness: the amended theorem applied to a concrete trajectory
exiting at index 3. -/
theorem C3_wit :
    muzzle [((0:ℚ), (1:ℚ)/5), (1, 1/2), (2, 9/10), (3, 11/10)] [0, 1/1000, 2/1000, 3/1000] =
      some (lagrange3 (1/2) (9/10) (11/10) 1 2 3 bl,
            lagrange3 (1/2) (9/10) (11/10) (1/1000) (2/1000) (3/1000) bl * 1000) :=
  (C3_thm [0, 1/1000, 2/1000, 3/1000] [((0:ℚ), (1:ℚ)/5), (1, 1/2), (2, 9/10), (3, 11/10)] 3
    1 (1/2) 2 (9/10) 3 (11/10) (1/1000) (2/1000) (3/1000)
    (by norm_num [nExit, reportRows, List.zip, List.zipWith, bl_val])
    (by norm_num) rfl rfl rfl rfl rfl rfl
    (by norm_num) (by norm_num) (by norm_num)).1

/-- Claim C3, counterexample: on a concrete trajectory the exit velocity the
script computes differs from the value obtained by fitting through the three
samples that PRECEDE the exit-detected sample (indices 0, 1, 2 here, the
exit being detected at index 3): the script's fit includes the
exit-detected sample itself. -/
theorem C3_cex :
    (muzzle [((0:ℚ), (1:ℚ)/5), (1, 1/2), (2, 9/10), (3, 11/10)] [0, 1/1000, 2/1000, 3/1000]).map
        Prod.fst ≠
      some (lagrange3 (1/5) (1/2) (9/10) 0 1 2 bl) := by
  norm_num [muzzle, lgxOf, lgvOf, lgtOf, pick3, pyGet, nExit, reportRows, List.zip,
    List.zipWith, bl_val, Int.toNat, Option.bind, lagrange3]

/-- Claim C5 (code_bug): a trajectory whose position exceeds the barrel
length already at sample index 1 leaves only one in-barrel sample, yet the
script raises no error: Python negative indexing silently wraps, `lgx`
becomes `[yint[-1,1], yint[0,1], yint[1,1]]` (using the LAST trajectory
sample), and a muzzle estimate is produced. -/
theorem C5_thm :
    nExit ([0, 1/1000, 2/1000].zip [((0:ℚ), (1:ℚ)/2), (10, 3/2), (5, 4/5)]) = 1 ∧
    (muzzle [((0:ℚ), (1:ℚ)/2), (10, 3/2), (5, 4/5)] [0, 1/1000, 2/1000]).isSome = true := by
  constructor <;>
    norm_num [muzzle, lgxOf, lgvOf, lgtOf, pick3, pyGet, nExit, reportRows, List.zip,
      List.zipWith, bl_val, Int.toNat, Option.bind, Option.isSome]

/-- Claim C6 (code_bug): on a trajectory that never exceeds the barrel
length the loop counter ends at the list length, and the muzzle step then
indexes one past the end of the trajectory: the script dies with an
uncaught IndexError (modelled by `muzzle` returning `none`) instead of
reporting a "projectile did not exit barrel within simulated time" error. -/
theorem C6_thm :
    nExit ([0, 1/1000, 2/1000].zip [((0:ℚ), (1:ℚ)/10), (1, 2/10), (2, 3/10)]) = 3 ∧
    muzzle [((0:ℚ), (1:ℚ)/10), (1, 2/10), (2, 3/10)] [0, 1/1000, 2/1000] = none := by
  constructor <;>
    norm_num [muzzle, lgxOf, lgvOf, lgtOf, pick3, pyGet, nExit, reportRows, List.zip,
      List.zipWith, bl_val, Int.toNat, Option.bind]

/-- Claim C7 (confirmed): the running maximum gauge pressure is
non-decreasing from printed row to printed row, its last value is the value
the summary reports, and (for a trajectory starting at the initial state,
whose first row's gauge pressure is exactly 0) that reported value equals
the maximum over all printed rows of the row's gauge pressure. -/
theorem C7_thm (s : List (ℚ × (ℚ × ℚ))) (hhead : s.head? = some (0, (0, x0))) :
    List.Chain' (· ≤ ·) (mpngTrace s 0) ∧
    (mpngTrace s 0).getLastD 0 = mpngFinal s ∧
    ((rowsOut s).map Row.bpng).maximum = ((mpngFinal s : ℚ) : WithBot ℚ) := by
  refine ⟨mpngTrace_chain s 0, mpngTrace_getLast s 0, ?_⟩
  cases s with
  | nil => simp at hhead
  | cons q s' =>
    have hq : q = (0, (0, x0)) := by simpa using hhead
    subst hq
    have hnot : ¬ bl < ((0:ℚ), ((0:ℚ), x0)).2.2 := not_lt.mpr x0_lt_bl.le
    rw [rowsOut, mpngFinal, reportRows_cons, if_neg hnot]
    simp only [bpng_init, lt_irrefl, if_false, List.map_cons]
    rw [show (rowOf ((0:ℚ), ((0:ℚ), x0))).bpng = 0 from bpng_init,
      maximum_cons_foldl, reportRows_mpng_foldl s' 0]

/-- Claim C7, witness: the theorem applied to a one-sample trajectory. -/
theorem C7_wit :
    ((rowsOut [((0:ℚ), ((0:ℚ), x0))]).map Row.bpng).maximum =
      ((mpngFinal [((0:ℚ), ((0:ℚ), x0))] : ℚ) : WithBot ℚ) :=
  (C7_thm [((0:ℚ), ((0:ℚ), x0))] rfl).2.2

end Potgun
